import Mathlib

/-!
Verification of the tic-tac-toe WebSocket game coordinator
(`src/server.js`, first variant, plus the `messages`-storing variant in
`src/unnamed/part_000`).

The embedding models:
* the 9-cell board as a `List Cell`, where JavaScript array reads and
  writes (including out-of-range ones, which grow the array) are
  `jsGet` / `jsSet`;
* a JS cell value: `null` (initial empty), an array hole / `undefined`
  (created by a write past the end), `'X'` and `'O'`;
* the room object and the WebSocket message / close handlers as a step
  function `applyEvent` over a state holding the (single) room and the
  set of currently open connections;
* database calls and `ws.send` calls as an explicit effect list.
-/

/-- A JS cell value of `room.board`: `null`, an array hole (reads as
`undefined`), `'X'`, or `'O'`. -/
inductive Cell
  | nullc
  | hole
  | px
  | po
deriving DecidableEq, Repr

/-- JS truthiness of a board cell: `null`, `undefined` and holes are falsy,
the strings `'X'`/`'O'` are truthy. -/
def cellTruthy : Cell → Bool
  | Cell.px => true
  | Cell.po => true
  | _ => false

/-- `board[i]` in JS: out-of-range reads give `undefined`, which we
identify with a hole. -/
def jsGet (b : List Cell) (i : Nat) : Cell :=
  (b.get? i).getD Cell.hole

/-- `board[i] = v` in JS: in-range writes update the element; writes past
the end grow the array, padding with holes. -/
def jsSet (b : List Cell) (i : Nat) (v : Cell) : List Cell :=
  if i < b.length then b.set i v
  else b ++ List.replicate (i - b.length) Cell.hole ++ [v]

/-- The 8 fixed winning lines of `calculateWinner` (3 rows, 3 columns,
2 diagonals), in source order. -/
def winLines : List (Nat × Nat × Nat) :=
  [(0, 1, 2), (3, 4, 5), (6, 7, 8),
   (0, 3, 6), (1, 4, 7), (2, 5, 8),
   (0, 4, 8), (2, 4, 6)]

/-- One iteration of the loop body of `calculateWinner`:
`if (board[a] && board[a] === board[b] && board[a] === board[c]) return board[a]`. -/
def lineCheck (b : List Cell) (t : Nat × Nat × Nat) : Option Cell :=
  let a := jsGet b t.1
  if cellTruthy a && (a == jsGet b t.2.1) && (a == jsGet b t.2.2) then some a
  else none

/-- `calculateWinner(board)` from `src/server.js` (identical in all
variants): returns the cell value of the first winning line that is
uniformly occupied, else `null`. -/
def calculateWinner (b : List Cell) : Option Cell :=
  winLines.findSome? (lineCheck b)

/-- Spec-side predicate (from the spec's words): the triple's three cells
all hold the same non-empty symbol. -/
def isWinTriple (b : List Cell) (t : Nat × Nat × Nat) : Bool :=
  match jsGet b t.1 with
  | Cell.px => (jsGet b t.2.1 == Cell.px) && (jsGet b t.2.2 == Cell.px)
  | Cell.po => (jsGet b t.2.1 == Cell.po) && (jsGet b t.2.2 == Cell.po)
  | _ => false

/-- `'waiting' | 'playing' | 'finished'`. -/
inductive Status
  | waiting
  | playing
  | finished
deriving DecidableEq, Repr

/-- One entry of `room.disconnectTimeouts`: the timer delay in
milliseconds and the values of `remainingPlayer` / `remainingWs` captured
by the `setTimeout` closure in the close handler. -/
structure Timer where
  delayMs : Nat
  remainingPlayer : Option Nat
  remainingWs : Option Nat
deriving DecidableEq, Repr

/-- The room object of `src/server.js` (first variant). Connections are
identified by numeric ids; `none` models a `null` WebSocket field. -/
structure Room where
  player1 : Nat
  player1Ws : Option Nat
  player2 : Option Nat
  player2Ws : Option Nat
  board : List Cell
  isXNext : Bool
  status : Status
  disconnectTimeouts : List (Option Nat × Timer)
deriving DecidableEq, Repr

/-- A row of the `partidas` table, as read by the join-hydration query. -/
structure Partida where
  idUsuario : Nat
  idAmigo : Option Nat
  estado : Nat
deriving DecidableEq, Repr

/-- Outbound WebSocket payloads (`type` field plus the data the claims
talk about). -/
inductive Msg
  | errorMsg (text : String)
  | playerData
  | reconnectMsg (board : List Cell) (isXNext : Bool)
  | start (board : List Cell) (isXNext : Bool)
  | moveMsg (board : List Cell) (isXNext : Bool)
  | gameOver (winner : Option Cell) (idGanador : Option Nat)
      (reason : Option String)
  | chatMsg (text : String) (userId : Nat)
  | heartbeatAck
deriving DecidableEq, Repr

/-- Side effects of one handler run: a `ws.send` to a connection, or a
database query (`UPDATE partidas SET idAmigo`, `UPDATE ... idGanador`,
`DELETE FROM partidas`). -/
inductive Eff
  | send (conn : Nat) (m : Msg)
  | dbSetOpponent (uid : Nat)
  | dbSetResult (winner : Option Nat)
  | dbDelete
deriving DecidableEq, Repr

/-- Server state for one room: the in-memory room (`none` once deleted
from `gameRooms`) and the ids of the currently open connections
(`readyState === OPEN`). -/
structure GSt where
  room : Option Room
  conns : List Nat
deriving DecidableEq, Repr

/-- JS truthiness of a nullable player id (`null` and `0` are falsy). -/
def optTruthy : Option Nat → Bool
  | some n => n != 0
  | none => false

/-- `Map.prototype.get` on `disconnectTimeouts`. -/
def mapLookup (l : List (Option Nat × Timer)) (k : Option Nat) :
    Option Timer :=
  (l.find? (fun p => p.1 == k)).map (fun p => p.2)

/-- `Map.prototype.delete` (also models `clearTimeout` of the stored
handle: a deleted entry can no longer fire). -/
def mapDelete (l : List (Option Nat × Timer)) (k : Option Nat) :
    List (Option Nat × Timer) :=
  l.filter (fun p => !(p.1 == k))

/-- `Map.prototype.set`. -/
def mapSet (l : List (Option Nat × Timer)) (k : Option Nat) (v : Timer) :
    List (Option Nat × Timer) :=
  mapDelete l k ++ [(k, v)]

/-- `if (ws && ws.readyState === WebSocket.OPEN) ws.send(m)`. -/
def sendIfOpen (conns : List Nat) (ws : Option Nat) (m : Msg) : List Eff :=
  match ws with
  | some c => if conns.contains c then [Eff.send c m] else []
  | none => []

/-- Send a message to both players' sockets when bound and open. -/
def broadcastRoom (conns : List Nat) (room : Room) (m : Msg) : List Eff :=
  sendIfOpen conns room.player1Ws m ++ sendIfOpen conns room.player2Ws m

/-- The room object built when a `join` finds no in-memory room but a
persisted `partidas` row (`src/server.js` lines 154-163). -/
def hydrateRoom (p : Partida) : Room :=
  { player1 := p.idUsuario
    player1Ws := none
    player2 := if optTruthy p.idAmigo then p.idAmigo else none
    player2Ws := none
    board := List.replicate 9 Cell.nullc
    isXNext := true
    status :=
      if p.estado = 1 then
        (if optTruthy p.idAmigo then Status.playing else Status.waiting)
      else Status.finished
    disconnectTimeouts := [] }

/-- The `join` processing once a room is at hand (`src/server.js` lines
167-210): full-room check, disconnect-timeout cancellation, socket
binding / slot-2 assignment, reconnect payload, player data and start
broadcasts. -/
def joinBody (room0 : Room) (conns : List Nat) (uid conn : Nat) :
    Room × List Eff :=
  if room0.player1 ≠ uid ∧ room0.player2 ≠ some uid ∧ room0.player2 ≠ none
  then
    (room0,
     [Eff.send conn
        (Msg.errorMsg "This game has already started with two players")])
  else
    let room1 :=
      if (mapLookup room0.disconnectTimeouts (some uid)).isSome then
        { room0 with
            disconnectTimeouts := mapDelete room0.disconnectTimeouts (some uid) }
      else room0
    let bound :=
      if room1.player1 = uid then
        ({ room1 with player1Ws := some conn }, ([] : List Eff))
      else if room1.player2 = some uid then
        ({ room1 with player2Ws := some conn }, ([] : List Eff))
      else if !(optTruthy room1.player2) then
        ({ room1 with
             player2 := some uid
             player2Ws := some conn
             status := Status.playing },
         [Eff.dbSetOpponent uid])
      else (room1, ([] : List Eff))
    let room2 := bound.1
    let effs2 :=
      if room2.status = Status.playing ∧
          (room2.player1 = uid ∨ room2.player2 = some uid) then
        [Eff.send conn (Msg.reconnectMsg room2.board room2.isXNext)]
      else []
    let effs3 := broadcastRoom conns room2 Msg.playerData
    let effs4 :=
      if room2.status = Status.playing then
        broadcastRoom conns room2 (Msg.start room2.board room2.isXNext)
      else []
    (room2, bound.2 ++ effs2 ++ effs3 ++ effs4)

/-- The full `join` message handler: hydrate from the persistence row
`dbRec` when the room is absent from memory, else use the in-memory room;
error when neither exists. -/
def handleJoin (st : GSt) (dbRec : Option Partida) (uid conn : Nat) :
    GSt × List Eff :=
  match st.room with
  | some room =>
    let r := joinBody room st.conns uid conn
    ({ st with room := some r.1 }, r.2)
  | none =>
    match dbRec with
    | none => (st, [Eff.send conn (Msg.errorMsg "Game not found")])
    | some p =>
      let r := joinBody (hydrateRoom p) st.conns uid conn
      ({ st with room := some r.1 }, r.2)

/-- `winner ? (winner === 'X' ? room.player1 : room.player2) : null` —
the symbol-to-slot mapping used when a game terminates. -/
def winnerId (p1 : Nat) (p2 : Option Nat) : Option Cell → Option Nat
  | some c => if c = Cell.px then some p1 else p2
  | none => none

/-- The `move` message handler (`src/server.js` lines 213-250). -/
def handleMove (st : GSt) (uid idx : Nat) : GSt × List Eff :=
  match st.room with
  | none => (st, [])
  | some room =>
    if room.status ≠ Status.playing then (st, [])
    else if (room.isXNext ∧ room.player1 ≠ uid) ∨
        (¬room.isXNext ∧ room.player2 ≠ some uid) then (st, [])
    else if cellTruthy (jsGet room.board idx) then (st, [])
    else
      let sym := if room.isXNext then Cell.px else Cell.po
      let b2 := jsSet room.board idx sym
      let room2 := { room with board := b2, isXNext := !room.isXNext }
      let moveEffs :=
        broadcastRoom st.conns room2 (Msg.moveMsg b2 room2.isXNext)
      let winner := calculateWinner b2
      if winner.isSome ∨ b2.contains Cell.nullc = false then
        let idG : Option Nat := winnerId room2.player1 room2.player2 winner
        let room3 := { room2 with status := Status.finished }
        ({ st with room := some room3 },
         moveEffs ++ [Eff.dbSetResult idG] ++
           broadcastRoom st.conns room3 (Msg.gameOver winner idG none))
      else ({ st with room := some room2 }, moveEffs)

/-- The `chat` message handler of the first variant (`src/server.js`
lines 252-275): requires the room and a truthy `message.userId`, then
broadcasts; this variant stores no chat log. -/
def handleChat (st : GSt) (userId : Nat) (text : String) : GSt × List Eff :=
  match st.room with
  | none => (st, [])
  | some room =>
    if userId ≠ 0 then
      (st, broadcastRoom st.conns room (Msg.chatMsg text userId))
    else (st, [])

/-- The `leave` message handler (`src/server.js` lines 277-311). -/
def handleLeave (st : GSt) (uid : Nat) : GSt × List Eff :=
  match st.room with
  | none => (st, [])
  | some room =>
    let d : Option Nat :=
      if room.player1 = uid then some room.player1 else room.player2
    let remP : Option Nat :=
      if room.player1 = uid then room.player2 else some room.player1
    let remWs : Option Nat :=
      if room.player1 = uid then room.player2Ws else room.player1Ws
    let room1 :=
      if room.player1 = uid then { room with player1Ws := none }
      else if room.player2 = some uid then { room with player2Ws := none }
      else room
    let fin :=
      match remWs with
      | some c =>
        if room1.status = Status.playing ∧ optTruthy remP ∧
            st.conns.contains c then
          ({ room1 with status := Status.finished },
           [Eff.dbSetResult remP,
            Eff.send c
              (Msg.gameOver
                (some (if remP = some room1.player1 then Cell.px else Cell.po))
                remP (some "opponent_left"))])
        else (room1, ([] : List Eff))
      | none => (room1, ([] : List Eff))
    let room2 := fin.1
    if room2.status = Status.waiting ∧ d = some room2.player1 then
      ({ st with room := none }, fin.2 ++ [Eff.dbDelete])
    else ({ st with room := some room2 }, fin.2)

/-- The transport `close` handler (`src/server.js` lines 323-365): unbind
the socket; while `playing`, store a 10-second disconnect timer capturing
`remainingPlayer` / `remainingWs`; for a `waiting` room whose creator
disconnects, delete room and record. -/
def handleClose (st : GSt) (conn : Nat) : GSt × List Eff :=
  let conns2 := st.conns.filter (fun c => c ≠ conn)
  match st.room with
  | none => ({ room := none, conns := conns2 }, [])
  | some room =>
    if room.player1Ws = some conn ∨ room.player2Ws = some conn then
      let d : Option Nat :=
        if room.player1Ws = some conn then some room.player1 else room.player2
      let remP : Option Nat :=
        if room.player1Ws = some conn then room.player2 else some room.player1
      let remWs : Option Nat :=
        if room.player1Ws = some conn then room.player2Ws else room.player1Ws
      let room1 :=
        if room.player1Ws = some conn then { room with player1Ws := none }
        else { room with player2Ws := none }
      if room1.status = Status.playing then
        ({ room :=
             some { room1 with
                      disconnectTimeouts :=
                        mapSet room1.disconnectTimeouts d
                          ⟨10000, remP, remWs⟩ }
           conns := conns2 }, [])
      else if room1.status = Status.waiting ∧ d = some room1.player1 then
        ({ room := none, conns := conns2 }, [Eff.dbDelete])
      else ({ room := some room1, conns := conns2 }, [])
    else ({ room := some room, conns := conns2 }, [])

/-- Expiry of a stored disconnect timer: runs the `setTimeout` callback
of the close handler if the entry was not cancelled, then removes the
entry. -/
def handleTimerFire (st : GSt) (key : Option Nat) : GSt × List Eff :=
  match st.room with
  | none => (st, [])
  | some room =>
    match mapLookup room.disconnectTimeouts key with
    | none => (st, [])
    | some t =>
      let room1 :=
        { room with disconnectTimeouts := mapDelete room.disconnectTimeouts key }
      match t.remainingWs with
      | some c =>
        if room1.status = Status.playing ∧ optTruthy t.remainingPlayer ∧
            st.conns.contains c then
          ({ st with room := some { room1 with status := Status.finished } },
           [Eff.dbSetResult t.remainingPlayer,
            Eff.send c
              (Msg.gameOver
                (some (if t.remainingPlayer = some room1.player1 then Cell.px
                       else Cell.po))
                t.remainingPlayer (some "opponent_left"))])
        else ({ st with room := some room1 }, [])
      | none => ({ st with room := some room1 }, [])

/-- Inbound events for one room: the five message types plus the
transport close notification and the expiry of a stored disconnect
timer. -/
inductive Event
  | join (uid : Nat) (conn : Nat)
  | move (uid : Nat) (idx : Nat)
  | chat (userId : Nat) (text : String)
  | leave (uid : Nat)
  | heartbeat (conn : Nat)
  | close (conn : Nat)
  | timerFire (key : Option Nat)
deriving DecidableEq, Repr

/-- Dispatch of one event (`dbRec` is the `partidas` row a hydrating
`join` would read). -/
def applyEvent (st : GSt) (dbRec : Option Partida) (e : Event) :
    GSt × List Eff :=
  match e with
  | Event.join uid conn => handleJoin st dbRec uid conn
  | Event.move uid idx => handleMove st uid idx
  | Event.chat userId text => handleChat st userId text
  | Event.leave uid => handleLeave st uid
  | Event.heartbeat conn => (st, [Eff.send conn Msg.heartbeatAck])
  | Event.close conn => handleClose st conn
  | Event.timerFire key => handleTimerFire st key

/-- Run a sequence of events (each with the persistence row its `join`
would read). -/
def runEvents (st : GSt) (l : List (Option Partida × Event)) : GSt :=
  l.foldl (fun s p => (applyEvent s p.1 p.2).1) st

/-- The conditions under which the `move` handler writes a cell: room in
memory and `playing`, the sender owns the symbol whose turn it is, and
`board[index]` is falsy. -/
def moveAccepted (r : Room) : Event → Bool
  | Event.move uid idx =>
    (r.status == Status.playing) &&
      !((r.isXNext && r.player1 != uid) ||
        (!r.isXNext && r.player2 != some uid)) &&
      !(cellTruthy (jsGet r.board idx))
  | _ => false

/-- A chat payload as stored in `room.messages` by the
`src/unnamed/part_000` variant. -/
structure P0Chat where
  user : String
  text : String
deriving DecidableEq, Repr

/-- Outbound payloads of the `src/unnamed/part_000` variant. -/
inductive P0Msg
  | playerData
  | chatRelay (m : P0Chat)
  | start (board : List Cell) (isXNext : Bool)
  | waitingState (board : List Cell) (isXNext : Bool)
deriving DecidableEq, Repr

/-- Side effects of the `src/unnamed/part_000` handlers. -/
inductive P0Eff
  | send (conn : Nat) (m : P0Msg)
  | dbCreate (uid : Nat)
  | dbSetOpponent (uid : Nat)
deriving DecidableEq, Repr

/-- The room object of `src/unnamed/part_000`, which stores the chat log
in `messages`. -/
structure P0Room where
  player1 : Nat
  player1Ws : Option Nat
  player2 : Option Nat
  player2Ws : Option Nat
  board : List Cell
  isXNext : Bool
  status : Status
  messages : List P0Chat
deriving DecidableEq, Repr

/-- `if (ws && ws.readyState === WebSocket.OPEN) ws.send(m)` for the
`part_000` variant. -/
def p0SendIfOpen (conns : List Nat) (ws : Option Nat) (m : P0Msg) :
    List P0Eff :=
  match ws with
  | some c => if conns.contains c then [P0Eff.send c m] else []
  | none => []

/-- Send to both players' sockets when bound and open (`part_000`). -/
def p0Broadcast (conns : List Nat) (room : P0Room) (m : P0Msg) :
    List P0Eff :=
  p0SendIfOpen conns room.player1Ws m ++ p0SendIfOpen conns room.player2Ws m

/-- The `chat` message handler of `src/unnamed/part_000` (lines 272-295):
push the message onto `room.messages`, then broadcast it to both bound
sockets, with no status check. -/
def p0HandleChat (roomIn : Option P0Room) (conns : List Nat) (m : P0Chat) :
    Option P0Room × List P0Eff :=
  match roomIn with
  | none => (none, [])
  | some room =>
    let room2 := { room with messages := room.messages ++ [m] }
    (some room2,
     p0SendIfOpen conns room2.player1Ws (P0Msg.chatRelay m) ++
       p0SendIfOpen conns room2.player2Ws (P0Msg.chatRelay m))

/-- The `join` message handler of `src/unnamed/part_000` (lines 108-213):
create the room on first join, join as second player, or reconnect; the
reconnect branch replays `room.messages` and the current game state to
the rejoining socket only. -/
def p0HandleJoin (roomIn : Option P0Room) (conns : List Nat)
    (uid conn : Nat) : Option P0Room × List P0Eff :=
  match roomIn with
  | none =>
    let room : P0Room :=
      { player1 := uid
        player1Ws := some conn
        player2 := none
        player2Ws := none
        board := List.replicate 9 Cell.nullc
        isXNext := true
        status := Status.waiting
        messages := [] }
    (some room, [P0Eff.dbCreate uid] ++ p0Broadcast conns room P0Msg.playerData)
  | some room =>
    if room.player1 ≠ uid ∧ ¬ optTruthy room.player2 then
      let room2 :=
        { room with
            player2 := some uid
            player2Ws := some conn
            status := Status.playing }
      (some room2,
       [P0Eff.dbSetOpponent uid] ++ p0Broadcast conns room2 P0Msg.playerData ++
         (room2.messages.map
           (fun m => p0SendIfOpen conns room2.player2Ws (P0Msg.chatRelay m))).flatten ++
         p0Broadcast conns room2 (P0Msg.start room2.board room2.isXNext))
    else if room.player1 = uid ∨ room.player2 = some uid then
      let room2 :=
        if room.player1 = uid then { room with player1Ws := some conn }
        else { room with player2Ws := some conn }
      let replay :=
        (room2.messages.map
          (fun m =>
            if conns.contains conn then [P0Eff.send conn (P0Msg.chatRelay m)]
            else [])).flatten
      let stateMsg :=
        if room2.status = Status.playing then
          P0Msg.start room2.board room2.isXNext
        else P0Msg.waitingState room2.board room2.isXNext
      (some room2,
       p0Broadcast conns room2 P0Msg.playerData ++ replay ++
         [P0Eff.send conn stateMsg])
    else (some room, [])

/-- Modelled from the spec: the rematch room state. No source file under
src/ implements rematch negotiation; the spec (sections 4.1 and 4.4)
describes `rematchVotes` on a finished room, so the room carries the two
slots, their optional bound connections, the board, and the set (kept in
vote order) of identities that requested a rematch. -/
structure RmRoom where
  slot1 : Nat
  slot2 : Nat
  conn1 : Option Nat
  conn2 : Option Nat
  board : List Cell
  isXNext : Bool
  status : Status
  rematchVotes : List Nat
deriving DecidableEq, Repr

/-- Modelled from the spec: outward effects of a rematch vote — the
vote-count progress broadcast, the creation of a new persisted match
record linking both identities, and the new-room announcement to a bound
connection. -/
inductive RmEff
  | progressUpdate (votes : Nat)
  | dbCreateMatch (p1 p2 : Nat)
  | announceNewRoom (conn : Nat) (newRoomId : Nat) (board : List Cell)
      (isXNext : Bool)
deriving DecidableEq, Repr

/-- Result of a rematch vote: the old room (`none` once discarded), the
freshly allocated room with its identifier when both identities have
voted, and the emitted effects. -/
structure RmResult where
  oldRoom : Option RmRoom
  newRoom : Option (Nat × RmRoom)
  effs : List RmEff
deriving DecidableEq, Repr

/-- Modelled from the spec: the `rematch(roomId, playerId)` event, absent
from src/. Following the spec's words: valid only if `status = finished`;
add `playerId` to `rematchVotes`; broadcast vote-count progress; when
both distinct identities have voted, allocate a new room in which the
first voter is slot 1 / X and the second voter is slot 2 / O, with the
board reset and `status = playing`, create a new persisted match record
linking both identities, discard the old room, and broadcast the new room
identifier and initial state to both bound connections. -/
def applyRematch (r : RmRoom) (uid : Nat) (newId : Nat) : RmResult :=
  if r.status ≠ Status.finished then ⟨some r, none, []⟩
  else
    let votes :=
      if uid ∈ r.rematchVotes then r.rematchVotes else r.rematchVotes ++ [uid]
    if r.slot1 ∈ votes ∧ r.slot2 ∈ votes then
      match votes with
      | v1 :: v2 :: _ =>
        let newRoom : RmRoom :=
          { slot1 := v1
            slot2 := v2
            conn1 := if v1 = r.slot1 then r.conn1 else r.conn2
            conn2 := if v2 = r.slot1 then r.conn1 else r.conn2
            board := List.replicate 9 Cell.nullc
            isXNext := true
            status := Status.playing
            rematchVotes := [] }
        ⟨none, some (newId, newRoom),
          [RmEff.dbCreateMatch v1 v2] ++
            (match r.conn1 with
             | some c =>
               [RmEff.announceNewRoom c newId newRoom.board newRoom.isXNext]
             | none => []) ++
            (match r.conn2 with
             | some c =>
               [RmEff.announceNewRoom c newId newRoom.board newRoom.isXNext]
             | none => [])⟩
      | _ =>
        ⟨some { r with rematchVotes := votes }, none,
          [RmEff.progressUpdate votes.length]⟩
    else
      ⟨some { r with rematchVotes := votes }, none,
        [RmEff.progressUpdate votes.length]⟩

theorem lineCheck_eq_if (b : List Cell) (t : Nat × Nat × Nat) :
    lineCheck b t = if isWinTriple b t then some (jsGet b t.1) else none := by
  unfold lineCheck isWinTriple
  rcases h1 : jsGet b t.1 <;> rcases h2 : jsGet b t.2.1 <;>
    rcases h3 : jsGet b t.2.2 <;> simp [cellTruthy, h1, h2, h3, beq_iff_eq]

theorem findSome?_if_eq_find?_map {α β : Type} (p : α → Bool) (g : α → β)
    (L : List α) :
    L.findSome? (fun x => if p x then some (g x) else none) =
      (L.find? p).map g := by
  induction L with
  | nil => rfl
  | cons a l ih =>
    by_cases h : p a = true
    · simp [List.findSome?, List.find?, h]
    · simp only [Bool.not_eq_true] at h
      simp [List.findSome?, List.find?, h, ih]

theorem mem_sendIfOpen {conns : List Nat} {ws : Option Nat} {m : Msg}
    {e : Eff} (h : e ∈ sendIfOpen conns ws m) : ∃ c, e = Eff.send c m := by
  unfold sendIfOpen at h
  rcases ws with _ | c
  · simp at h
  · simp at h
    exact ⟨c, h.2⟩

theorem mem_broadcastRoom {conns : List Nat} {room : Room} {m : Msg}
    {e : Eff} (h : e ∈ broadcastRoom conns room m) : ∃ c, e = Eff.send c m := by
  unfold broadcastRoom at h
  rcases List.mem_append.1 h with h1 | h1 <;> exact mem_sendIfOpen h1

theorem sendIfOpen_mem {conns : List Nat} {c : Nat} (m : Msg)
    (hc : conns.contains c = true) :
    Eff.send c m ∈ sendIfOpen conns (some c) m := by
  simp [sendIfOpen, hc]
  simpa using hc

/-- C1: for every 9-cell board, `calculateWinner` returns the occupying
symbol of the first of the 8 fixed winning triples (rows, columns,
diagonals, in that order) whose three cells hold the same non-empty
symbol, and returns `none` exactly when no triple is uniformly occupied
by a non-empty symbol. -/
theorem calculateWinner_first_uniform_triple (b : List Cell)
    (hb : b.length = 9) :
    calculateWinner b =
      (winLines.find? (isWinTriple b)).map (fun t => jsGet b t.1)
    ∧ (calculateWinner b = none ↔
        ∀ t ∈ winLines, isWinTriple b t = false) := by
  have h1 : calculateWinner b =
      (winLines.find? (isWinTriple b)).map (fun t => jsGet b t.1) := by
    unfold calculateWinner
    rw [show lineCheck b =
          fun t => if isWinTriple b t then some (jsGet b t.1) else none from
        funext (lineCheck_eq_if b)]
    exact findSome?_if_eq_find?_map _ _ _
  refine ⟨h1, ?_⟩
  rw [h1]
  simp [List.find?_eq_none]

/-- A concrete 9-cell board with a uniform top row. -/
def c1Board : List Cell :=
  [Cell.px, Cell.px, Cell.px, Cell.po, Cell.po, Cell.nullc, Cell.nullc,
   Cell.nullc, Cell.nullc]

theorem calculateWinner_first_uniform_triple_witness :
    c1Board.length = 9 ∧
    (calculateWinner c1Board =
      (winLines.find? (isWinTriple c1Board)).map (fun t => jsGet c1Board t.1)
    ∧ (calculateWinner c1Board = none ↔
        ∀ t ∈ winLines, isWinTriple c1Board t = false)) :=
  ⟨by decide, calculateWinner_first_uniform_triple c1Board (by decide)⟩

theorem jsGet_len_le {b : List Cell} {i : Nat} (h : b.length ≤ i) :
    jsGet b i = Cell.hole := by
  unfold jsGet
  rw [List.get?_eq_none.2 h]
  rfl

/-- A playing room over an empty 9-cell board, both sockets bound and
open. -/
def c2Room : Room :=
  { player1 := 1
    player1Ws := some 11
    player2 := some 2
    player2Ws := some 12
    board := List.replicate 9 Cell.nullc
    isXNext := true
    status := Status.playing
    disconnectTimeouts := [] }

/-- State holding `c2Room` with connections 11 and 12 open. -/
def c2St : GSt := { room := some c2Room, conns := [11, 12] }

/-- C2 counterexample: on a playing room with an empty 9-cell board, the
move `X` at cellIndex 9 (out of range) is not ignored: the stored board
grows to 10 cells, `isXNext` flips, and the move is broadcast — so the
claimed no-op (board and turnSymbol unchanged) is false. -/
theorem move_out_of_range_not_noop :
    ((handleMove c2St 1 9).1.room.map fun r => (r.board.length, r.isXNext)) =
      some (10, false)
    ∧ (handleMove c2St 1 9).2 ≠ [] := by decide

/-- C2 (amended): a move leaves the room unchanged and broadcasts nothing
unless the room is `playing`, the sender owns the symbol equal to
`turnSymbol`, and `board[cellIndex]` is falsy; but an out-of-range
`cellIndex` reads as falsy rather than occupied, so such a move is
accepted, not ignored: the symbol is written at that index (growing the
board past its 9 cells, padding with holes), `turnSymbol` flips, and no
error is surfaced. -/
theorem move_noop_guards_and_out_of_range
    (st : GSt) (r : Room) (uid idx : Nat) (hr : st.room = some r) :
    ((r.status ≠ Status.playing ∨
        ((r.isXNext ∧ r.player1 ≠ uid) ∨ (¬r.isXNext ∧ r.player2 ≠ some uid)) ∨
        cellTruthy (jsGet r.board idx) = true) →
      handleMove st uid idx = (st, []))
    ∧ (r.status = Status.playing →
       (((r.isXNext ∧ r.player1 ≠ uid) ∨ (¬r.isXNext ∧ r.player2 ≠ some uid)) →
          False) →
       r.board.length ≤ idx →
       ∃ r2, (handleMove st uid idx).1.room = some r2 ∧
         r2.board = r.board ++ List.replicate (idx - r.board.length) Cell.hole
             ++ [if r.isXNext then Cell.px else Cell.po] ∧
         r2.isXNext = (!r.isXNext) ∧
         ∀ c txt, Eff.send c (Msg.errorMsg txt) ∉ (handleMove st uid idx).2) := by
  obtain ⟨ro, cs⟩ := st
  simp only at hr
  subst hr
  constructor
  · intro hg
    dsimp only [handleMove]
    rcases hg with hg | hg | hg
    · rw [if_pos hg]
    · by_cases hs : r.status = Status.playing
      · rw [if_neg (by simp [hs]), if_pos hg]
      · rw [if_pos hs]
    · by_cases hs : r.status = Status.playing
      · by_cases ht : (r.isXNext ∧ r.player1 ≠ uid) ∨
            (¬r.isXNext ∧ r.player2 ≠ some uid)
        · rw [if_neg (by simp [hs]), if_pos ht]
        · rw [if_neg (by simp [hs]), if_neg ht, if_pos hg]
      · rw [if_pos hs]
  · intro hs ht hlen
    have hfalsy : cellTruthy (jsGet r.board idx) = false := by
      rw [jsGet_len_le hlen]
      rfl
    have hset : jsSet r.board idx (if r.isXNext then Cell.px else Cell.po) =
        r.board ++ List.replicate (idx - r.board.length) Cell.hole ++
          [if r.isXNext then Cell.px else Cell.po] := by
      unfold jsSet
      rw [if_neg (by omega)]
    dsimp only [handleMove]
    rw [if_neg (by simp [hs]), if_neg ht, if_neg (by simp [hfalsy])]
    by_cases hw : (calculateWinner (jsSet r.board idx
          (if r.isXNext then Cell.px else Cell.po))).isSome = true ∨
        (jsSet r.board idx
          (if r.isXNext then Cell.px else Cell.po)).contains Cell.nullc = false
    · rw [if_pos hw]
      refine ⟨_, rfl, by simpa using hset, rfl, ?_⟩
      intro c txt hmem
      dsimp only at hmem
      rcases List.mem_append.1 hmem with h1 | h1
      · rcases List.mem_append.1 h1 with h2 | h2
        · rcases mem_broadcastRoom h2 with ⟨c2, hc2⟩
          simp at hc2
        · simp at h2
      · rcases mem_broadcastRoom h1 with ⟨c2, hc2⟩
        simp at hc2
    · rw [if_neg hw]
      refine ⟨_, rfl, by simpa using hset, rfl, ?_⟩
      intro c txt hmem
      rcases mem_broadcastRoom hmem with ⟨c2, hc2⟩
      simp at hc2

theorem move_noop_guards_and_out_of_range_witness :
    handleMove c2St 2 0 = (c2St, []) :=
  (move_noop_guards_and_out_of_range c2St c2Room 2 0 rfl).1
    (Or.inr (Or.inl (by decide)))

theorem mem_broadcastRoom_of_bound {conns : List Nat} {room : Room} {c : Nat}
    (m : Msg) (hb : room.player1Ws = some c ∨ room.player2Ws = some c)
    (hc : conns.contains c = true) :
    Eff.send c m ∈ broadcastRoom conns room m := by
  unfold broadcastRoom
  rcases hb with hb | hb
  · exact List.mem_append.2 (Or.inl (by rw [hb]; exact sendIfOpen_mem m hc))
  · exact List.mem_append.2 (Or.inr (by rw [hb]; exact sendIfOpen_mem m hc))

/-- C3: after an accepted move, if the win evaluator returns a symbol or
the updated board has no `null` cell left, the room's status becomes
`finished` (in particular it never stays `playing`), the winner identity
is `winnerId` — the symbol-to-slot mapping X to player 1, O to player 2,
`none` on a draw — a persistence result update carrying that identity is
issued, and the `gameOver` outcome is broadcast to every bound open
socket. -/
theorem move_termination_finished (st : GSt) (r : Room) (uid idx : Nat)
    (hr : st.room = some r)
    (hs : r.status = Status.playing)
    (ht : ¬((r.isXNext ∧ r.player1 ≠ uid) ∨
        (¬r.isXNext ∧ r.player2 ≠ some uid)))
    (hc : cellTruthy (jsGet r.board idx) = false)
    (hend : (calculateWinner (jsSet r.board idx
          (if r.isXNext then Cell.px else Cell.po))).isSome = true ∨
        (jsSet r.board idx
          (if r.isXNext then Cell.px else Cell.po)).contains Cell.nullc
          = false) :
    ∃ r2, (handleMove st uid idx).1.room = some r2 ∧
      r2.status = Status.finished ∧
      r2.status ≠ Status.playing ∧
      (calculateWinner (jsSet r.board idx
          (if r.isXNext then Cell.px else Cell.po)) = none →
        winnerId r.player1 r.player2
          (calculateWinner (jsSet r.board idx
            (if r.isXNext then Cell.px else Cell.po))) = none) ∧
      Eff.dbSetResult
          (winnerId r.player1 r.player2
            (calculateWinner (jsSet r.board idx
              (if r.isXNext then Cell.px else Cell.po)))) ∈
        (handleMove st uid idx).2 ∧
      (∀ c, (r.player1Ws = some c ∨ r.player2Ws = some c) →
        st.conns.contains c = true →
        Eff.send c
            (Msg.gameOver
              (calculateWinner (jsSet r.board idx
                (if r.isXNext then Cell.px else Cell.po)))
              (winnerId r.player1 r.player2
                (calculateWinner (jsSet r.board idx
                  (if r.isXNext then Cell.px else Cell.po))))
              none) ∈
          (handleMove st uid idx).2) := by
  obtain ⟨ro, cs⟩ := st
  simp only at hr
  subst hr
  dsimp only [handleMove]
  rw [if_neg (by simp [hs]), if_neg ht, if_neg (by simp [hc]), if_pos hend]
  refine ⟨_, rfl, rfl, by simp, ?_, ?_, ?_⟩
  · intro hnone
    rw [hnone]
    rfl
  · exact List.mem_append.2
      (Or.inl (List.mem_append.2 (Or.inr (List.mem_singleton.2 rfl))))
  · intro c hcw hcont
    exact List.mem_append.2 (Or.inr (mem_broadcastRoom_of_bound _ hcw hcont))

/-- The room of the spec section 8 scenario one move before X completes
the top row. -/
def c3Room : Room :=
  { player1 := 1
    player1Ws := some 11
    player2 := some 2
    player2Ws := some 12
    board := [Cell.px, Cell.px, Cell.nullc, Cell.po, Cell.po, Cell.nullc,
              Cell.nullc, Cell.nullc, Cell.nullc]
    isXNext := true
    status := Status.playing
    disconnectTimeouts := [] }

/-- State holding `c3Room` with connections 11 and 12 open. -/
def c3St : GSt := { room := some c3Room, conns := [11, 12] }

theorem move_termination_finished_witness :
    ∃ r2, (handleMove c3St 1 2).1.room = some r2 ∧
      r2.status = Status.finished ∧
      r2.status ≠ Status.playing ∧
      (calculateWinner (jsSet c3Room.board 2
          (if c3Room.isXNext then Cell.px else Cell.po)) = none →
        winnerId c3Room.player1 c3Room.player2
          (calculateWinner (jsSet c3Room.board 2
            (if c3Room.isXNext then Cell.px else Cell.po))) = none) ∧
      Eff.dbSetResult
          (winnerId c3Room.player1 c3Room.player2
            (calculateWinner (jsSet c3Room.board 2
              (if c3Room.isXNext then Cell.px else Cell.po)))) ∈
        (handleMove c3St 1 2).2 ∧
      (∀ c, (c3Room.player1Ws = some c ∨ c3Room.player2Ws = some c) →
        c3St.conns.contains c = true →
        Eff.send c
            (Msg.gameOver
              (calculateWinner (jsSet c3Room.board 2
                (if c3Room.isXNext then Cell.px else Cell.po)))
              (winnerId c3Room.player1 c3Room.player2
                (calculateWinner (jsSet c3Room.board 2
                  (if c3Room.isXNext then Cell.px else Cell.po))))
              none) ∈
          (handleMove c3St 1 2).2) :=
  move_termination_finished c3St c3Room 1 2 rfl rfl (by decide) (by decide)
    (by decide)

/-- C5: a join to a waiting room by a non-creator identity while slot 2
is empty assigns slot 2, binds the socket, moves the room to `playing`,
and issues the persistence update recording the opponent; a join by a
third identity while both slots are occupied is answered with the
room-full error envelope and leaves the room (and its bindings)
unchanged. -/
theorem join_second_player_or_room_full :
    (∀ (st : GSt) (r : Room) (db : Option Partida) (uid conn : Nat),
      st.room = some r → r.status = Status.waiting → r.player2 = none →
      r.player1 ≠ uid →
      ∃ r2, (handleJoin st db uid conn).1.room = some r2 ∧
        r2.player2 = some uid ∧ r2.player2Ws = some conn ∧
        r2.status = Status.playing ∧
        Eff.dbSetOpponent uid ∈ (handleJoin st db uid conn).2)
    ∧ (∀ (st : GSt) (r : Room) (db : Option Partida) (uid conn q : Nat),
      st.room = some r → r.player2 = some q → uid ≠ r.player1 → uid ≠ q →
      (handleJoin st db uid conn).1.room = some r ∧
      (handleJoin st db uid conn).2 =
        [Eff.send conn
          (Msg.errorMsg "This game has already started with two players")]) := by
  constructor
  · intro st r db uid conn hr hw hp2 hne
    obtain ⟨ro, cs⟩ := st
    simp only at hr
    subst hr
    dsimp only [handleJoin, joinBody]
    rw [if_neg (show ¬(r.player1 ≠ uid ∧ r.player2 ≠ some uid ∧
        r.player2 ≠ none) by simp [hp2])]
    have hne2 : ¬ (r.player1 = uid) := hne
    by_cases hto : (mapLookup r.disconnectTimeouts (some uid)).isSome = true
    · rw [if_pos hto]
      dsimp only
      rw [if_neg hne2, if_neg (show ¬(r.player2 = some uid) by simp [hp2]),
        if_pos (show (!optTruthy r.player2) = true by simp [hp2, optTruthy])]
      exact ⟨_, rfl, rfl, rfl, rfl,
        List.mem_append.2 (Or.inl (List.mem_append.2 (Or.inl
          (List.mem_append.2 (Or.inl (List.mem_singleton.2 rfl))))))⟩
    · rw [if_neg hto]
      dsimp only
      rw [if_neg hne2, if_neg (show ¬(r.player2 = some uid) by simp [hp2]),
        if_pos (show (!optTruthy r.player2) = true by simp [hp2, optTruthy])]
      exact ⟨_, rfl, rfl, rfl, rfl,
        List.mem_append.2 (Or.inl (List.mem_append.2 (Or.inl
          (List.mem_append.2 (Or.inl (List.mem_singleton.2 rfl))))))⟩
  · intro st r db uid conn q hr hp2 hne1 hne2
    obtain ⟨ro, cs⟩ := st
    simp only at hr
    subst hr
    dsimp only [handleJoin, joinBody]
    rw [if_pos ⟨fun h => hne1 h.symm, by simp [hp2]; exact fun h => hne2 h.symm,
      by simp [hp2]⟩]
    exact ⟨rfl, rfl⟩

/-- A waiting room whose creator (identity 1) is bound on socket 11 and
whose slot 2 is empty. -/
def c5Room : Room :=
  { player1 := 1
    player1Ws := some 11
    player2 := none
    player2Ws := none
    board := List.replicate 9 Cell.nullc
    isXNext := true
    status := Status.waiting
    disconnectTimeouts := [] }

/-- State holding `c5Room` with connections 11 and 12 open. -/
def c5St : GSt := { room := some c5Room, conns := [11, 12] }

theorem join_second_player_or_room_full_witness :
    ∃ r2, (handleJoin c5St none 2 12).1.room = some r2 ∧
      r2.player2 = some 2 ∧ r2.player2Ws = some 12 ∧
      r2.status = Status.playing ∧
      Eff.dbSetOpponent 2 ∈ (handleJoin c5St none 2 12).2 :=
  join_second_player_or_room_full.1 c5St c5Room none 2 12 rfl rfl rfl
    (by decide)

theorem joinBody_fields (room0 : Room) (conns : List Nat) (uid conn : Nat) :
    (joinBody room0 conns uid conn).1.board = room0.board ∧
    (joinBody room0 conns uid conn).1.isXNext = room0.isXNext ∧
    (joinBody room0 conns uid conn).1.player1 = room0.player1 ∧
    ((joinBody room0 conns uid conn).1.status = room0.status ∨
      (joinBody room0 conns uid conn).1.status = Status.playing) := by
  dsimp only [joinBody]
  split_ifs <;> simp

/-- C10: a join that hydrates the room from a persisted `partidas` row
(room absent from memory) always produces an in-memory room with an
all-`null` 9-cell board and turn X, whatever moves were made before the
room left memory; and when the row records an opponent and active state
(`estado = 1`), the hydrated room resumes directly in `playing` on that
empty board. -/
theorem join_hydration_resets_board (st : GSt) (p : Partida) (uid conn : Nat)
    (hroom : st.room = none) :
    ∃ r2, (handleJoin st (some p) uid conn).1.room = some r2 ∧
      r2.board = List.replicate 9 Cell.nullc ∧
      r2.isXNext = true ∧
      (p.estado = 1 → optTruthy p.idAmigo = true →
        r2.status = Status.playing) := by
  obtain ⟨ro, cs⟩ := st
  simp only at hroom
  subst hroom
  dsimp only [handleJoin]
  refine ⟨_, rfl, ?_, ?_, ?_⟩
  · rw [(joinBody_fields (hydrateRoom p) cs uid conn).1]
    rfl
  · rw [(joinBody_fields (hydrateRoom p) cs uid conn).2.1]
    rfl
  · intro he ha
    rcases (joinBody_fields (hydrateRoom p) cs uid conn).2.2.2 with h | h
    · rw [h]
      simp [hydrateRoom, he, ha]
    · exact h

/-- A state with no in-memory room. -/
def c10St : GSt := { room := none, conns := [] }

/-- A persisted row with an opponent recorded and active state. -/
def c10Partida : Partida := { idUsuario := 1, idAmigo := some 2, estado := 1 }

theorem join_hydration_resets_board_witness :
    ∃ r2, (handleJoin c10St (some c10Partida) 1 11).1.room = some r2 ∧
      r2.board = List.replicate 9 Cell.nullc ∧
      r2.isXNext = true ∧
      (c10Partida.estado = 1 → optTruthy c10Partida.idAmigo = true →
        r2.status = Status.playing) :=
  join_hydration_resets_board c10St c10Partida 1 11 rfl

/-- A playing room: players 1 and 2 bound on open sockets 11 and 12. -/
def c6Room : Room :=
  { player1 := 1
    player1Ws := some 11
    player2 := some 2
    player2Ws := some 12
    board := List.replicate 9 Cell.nullc
    isXNext := true
    status := Status.playing
    disconnectTimeouts := [] }

/-- State holding `c6Room` with connections 11 and 12 open. -/
def c6St : GSt := { room := some c6Room, conns := [11, 12] }

/-- The state after player 2's socket 12 closes while playing. -/
def c6AfterClose : GSt := (applyEvent c6St none (Event.close 12)).1

/-- C6, evaluated at the claim's scenario: closing player 2's socket
while the room is playing stores a 10000 ms grace timer for identity 2;
a join by identity 2 before expiry cancels the timer and leaves status
`playing` with the board unchanged; firing the timer with player 1 still
bound and open finishes the room, records player 1 as winner in the
persistence update, and sends player 1 a `gameOver` — whose reason tag is
"opponent_left", not the "opponent_disconnected" the claim states. -/
theorem disconnect_grace_timer_fires_opponent_left :
    (c6AfterClose.room.map Room.disconnectTimeouts) =
      some [(some 2,
        { delayMs := 10000, remainingPlayer := some 1, remainingWs := some 11 })]
    ∧ (c6AfterClose.room.map Room.status) = some Status.playing
    ∧ ((applyEvent { c6AfterClose with conns := [11, 13] } none
          (Event.join 2 13)).1.room.map
        (fun r => (r.disconnectTimeouts, r.status, r.board))) =
      some ([], Status.playing, List.replicate 9 Cell.nullc)
    ∧ ((applyEvent c6AfterClose none
          (Event.timerFire (some 2))).1.room.map Room.status) =
      some Status.finished
    ∧ (applyEvent c6AfterClose none (Event.timerFire (some 2))).2 =
      [Eff.dbSetResult (some 1),
       Eff.send 11 (Msg.gameOver (some Cell.px) (some 1)
         (some "opponent_left"))]
    ∧ "opponent_left" ≠ "opponent_disconnected" :=
  ⟨rfl, rfl, rfl, rfl, rfl, by decide⟩

/-- A playing room whose slot-2 player is currently unbound (for example
inside their own disconnect grace window). -/
def c7Room : Room :=
  { player1 := 1
    player1Ws := some 11
    player2 := some 2
    player2Ws := none
    board := List.replicate 9 Cell.nullc
    isXNext := true
    status := Status.playing
    disconnectTimeouts := [] }

/-- State holding `c7Room` with only connection 11 open. -/
def c7St : GSt := { room := some c7Room, conns := [11] }

/-- C7 counterexample: player 1 sends `leave` on a playing room whose
opponent is not currently bound: nothing is finalized — the room stays
`playing` and no persistence result update or broadcast is issued,
contradicting the claim that a leave on a playing room always finalizes
the game with the other slot's player as winner. -/
theorem leave_playing_unbound_opponent_not_finalized :
    ((handleLeave c7St 1).1.room.map Room.status) = some Status.playing
    ∧ (handleLeave c7St 1).2 = [] :=
  ⟨rfl, rfl⟩

/-- C7 (amended): a leave unbinds the leaver's slot's socket; if the room
is `playing` AND the other slot holds a (truthy) player whose socket is
bound and open, the game is finalized immediately — no grace timer — with
that player as winner, issuing the persistence result update and the
`gameOver` broadcast (reason "opponent_left"); if the room is `waiting`
and the leaver is the creator, the room and its persisted record are
deleted. -/
theorem leave_unbinds_finalizes_deletes :
    (∀ (st : GSt) (r : Room) (uid : Nat) (r2 : Room), st.room = some r →
      (handleLeave st uid).1.room = some r2 →
      (r.player1 = uid → r2.player1Ws = none) ∧
      (r.player1 ≠ uid → r.player2 = some uid → r2.player2Ws = none))
    ∧ (∀ (st : GSt) (r : Room) (uid c : Nat) (remP : Option Nat),
      st.room = some r → r.status = Status.playing →
      remP = (if r.player1 = uid then r.player2 else some r.player1) →
      optTruthy remP = true →
      (if r.player1 = uid then r.player2Ws else r.player1Ws) = some c →
      st.conns.contains c = true →
      ∃ r2, (handleLeave st uid).1.room = some r2 ∧
        r2.status = Status.finished ∧
        (handleLeave st uid).2 =
          [Eff.dbSetResult remP,
           Eff.send c (Msg.gameOver
             (some (if remP = some r.player1 then Cell.px else Cell.po))
             remP (some "opponent_left"))])
    ∧ (∀ (st : GSt) (r : Room) (uid : Nat), st.room = some r →
      r.status = Status.waiting → r.player1 = uid →
      (handleLeave st uid).1.room = none ∧
      (handleLeave st uid).2 = [Eff.dbDelete]) := by
  refine ⟨?_, ?_, ?_⟩
  · intro st r uid r2 hr hr2
    obtain ⟨ro, cs⟩ := st
    simp only at hr
    subst hr
    dsimp only [handleLeave] at hr2
    constructor
    · intro hp1
      simp only [if_pos hp1] at hr2
      rcases hws : r.player2Ws with _ | c <;> rw [hws] at hr2 <;>
        dsimp only at hr2
      · split at hr2 <;> cases hr2 <;> rfl
      · split at hr2 <;> split at hr2 <;> cases hr2 <;> rfl
    · intro hp1 hp2
      simp only [if_neg hp1, if_pos hp2] at hr2
      rcases hws : r.player1Ws with _ | c <;> rw [hws] at hr2 <;>
        dsimp only at hr2
      · split at hr2 <;> cases hr2 <;> rfl
      · split at hr2 <;> split at hr2 <;> cases hr2 <;> rfl
  · intro st r uid c remP hr hs hremP htr hws hcont
    obtain ⟨ro, cs⟩ := st
    simp only at hr
    subst hr
    subst hremP
    dsimp only [handleLeave]
    by_cases hp1 : r.player1 = uid
    · simp only [if_pos hp1] at hws htr ⊢
      rw [hws]
      dsimp only
      rw [if_pos (show r.status = Status.playing ∧
            optTruthy r.player2 = true ∧ cs.contains c = true from
          ⟨hs, htr, by simpa using hcont⟩)]
      dsimp only
      rw [if_neg (show ¬(Status.finished = Status.waiting ∧
            some r.player1 = some r.player1) by simp)]
      exact ⟨_, rfl, rfl, rfl⟩
    · simp only [if_neg hp1] at hws htr ⊢
      by_cases hp2 : r.player2 = some uid
      · simp only [if_pos hp2] at hws ⊢
        rw [hws]
        dsimp only
        rw [if_pos (show r.status = Status.playing ∧
              optTruthy (some r.player1) = true ∧ cs.contains c = true from
            ⟨hs, htr, by simpa using hcont⟩)]
        dsimp only
        rw [if_neg (show ¬(Status.finished = Status.waiting ∧
              r.player2 = some r.player1) by simp)]
        exact ⟨_, rfl, rfl, rfl⟩
      · simp only [if_neg hp2] at hws ⊢
        rw [hws]
        dsimp only
        rw [if_pos (show r.status = Status.playing ∧
              optTruthy (some r.player1) = true ∧ cs.contains c = true from
            ⟨hs, htr, by simpa using hcont⟩)]
        dsimp only
        rw [if_neg (show ¬(Status.finished = Status.waiting ∧
              r.player2 = some r.player1) by simp)]
        exact ⟨_, rfl, rfl, rfl⟩
  · intro st r uid hr hw hp1
    obtain ⟨ro, cs⟩ := st
    simp only at hr
    subst hr
    dsimp only [handleLeave]
    simp only [if_pos hp1]
    rcases hws : r.player2Ws with _ | c <;> dsimp only
    · rw [if_pos (show r.status = Status.waiting ∧
          some r.player1 = some r.player1 from ⟨hw, rfl⟩)]
      exact ⟨rfl, rfl⟩
    · rw [if_neg (show ¬(r.status = Status.playing ∧
            optTruthy r.player2 = true ∧ cs.contains c = true) by simp [hw])]
      dsimp only
      rw [if_pos (show r.status = Status.waiting ∧
          some r.player1 = some r.player1 from ⟨hw, rfl⟩)]
      exact ⟨rfl, rfl⟩

/-- A waiting room whose creator (identity 1) is bound on socket 11. -/
def c7WaitRoom : Room :=
  { player1 := 1
    player1Ws := some 11
    player2 := none
    player2Ws := none
    board := List.replicate 9 Cell.nullc
    isXNext := true
    status := Status.waiting
    disconnectTimeouts := [] }

/-- State holding `c7WaitRoom` with connection 11 open. -/
def c7WaitSt : GSt := { room := some c7WaitRoom, conns := [11] }

theorem leave_unbinds_finalizes_deletes_witness :
    (handleLeave c7WaitSt 1).1.room = none ∧
    (handleLeave c7WaitSt 1).2 = [Eff.dbDelete] :=
  leave_unbinds_finalizes_deletes.2.2 c7WaitSt c7WaitRoom 1 rfl rfl rfl

theorem jsGet_jsSet_of_falsy {b : List Cell} {j : Nat} {v : Cell}
    (hj : cellTruthy (jsGet b j) = false) (i : Nat)
    (hi : cellTruthy (jsGet b i) = true) :
    jsGet (jsSet b j v) i = jsGet b i := by
  have hij : i ≠ j := fun h => by rw [h] at hi; rw [hi] at hj; cases hj
  have hilen : i < b.length := by
    by_contra hle
    rw [jsGet_len_le (Nat.le_of_not_lt hle)] at hi
    cases hi
  unfold jsSet
  by_cases hjl : j < b.length
  · rw [if_pos hjl]
    unfold jsGet
    rw [List.get?_set_ne _ _ (fun h => hij h.symm)]
  · rw [if_neg hjl]
    unfold jsGet
    rw [List.get?_append, List.get?_append hilen]
    rw [List.length_append]
    omega

theorem moveAccepted_move_iff (r : Room) (uid idx : Nat) :
    moveAccepted r (Event.move uid idx) = true ↔
      (r.status = Status.playing ∧
        ¬((r.isXNext ∧ r.player1 ≠ uid) ∨
          (¬r.isXNext ∧ r.player2 ≠ some uid)) ∧
        cellTruthy (jsGet r.board idx) = false) := by
  simp only [moveAccepted, Bool.and_eq_true, Bool.not_eq_true',
    Bool.or_eq_true, beq_iff_eq, bne_iff_ne, Bool.and_eq_false_iff,
    Bool.or_eq_false_iff, Bool.not_eq_true]
  constructor
  · rintro ⟨⟨h1, h2⟩, h3⟩
    refine ⟨h1, ?_, h3⟩
    rcases h2 with ⟨ha, hb⟩
    rintro (⟨hx, hne⟩ | ⟨hx, hne⟩)
    · rcases ha with ha | ha
      · rw [hx] at ha; cases ha
      · exact hne (by simpa using ha)
    · rcases hb with hb | hb
      · rw [hx] at hb; simp at hb
      · exact hne (by simpa using hb)
  · rintro ⟨h1, h2, h3⟩
    refine ⟨⟨h1, ?_, ?_⟩, h3⟩
    · by_cases hx : r.isXNext = true
      · right
        by_contra hne
        exact h2 (Or.inl ⟨hx, by simpa using hne⟩)
      · exact Or.inl (by simpa using hx)
    · by_cases hx : r.isXNext = true
      · exact Or.inl (by simpa using hx)
      · right
        by_contra hne
        exact h2 (Or.inr ⟨by simpa using hx, by simpa using hne⟩)

theorem handleChat_state (st : GSt) (u : Nat) (t : String) :
    (handleChat st u t).1 = st := by
  obtain ⟨ro, cs⟩ := st
  rcases ro with _ | r
  · rfl
  · dsimp only [handleChat]
    split <;> rfl

theorem handleJoin_room_some (st : GSt) (r : Room) (db : Option Partida)
    (uid conn : Nat) (hr : st.room = some r) :
    ∃ r2, (handleJoin st db uid conn).1.room = some r2 ∧
      r2.board = r.board ∧ r2.isXNext = r.isXNext ∧
      (r2.status = r.status ∨ r2.status = Status.playing) := by
  obtain ⟨ro, cs⟩ := st
  simp only at hr
  subst hr
  dsimp only [handleJoin]
  exact ⟨_, rfl, (joinBody_fields r cs uid conn).1,
    (joinBody_fields r cs uid conn).2.1,
    (joinBody_fields r cs uid conn).2.2.2⟩

theorem handleMove_room (st : GSt) (r : Room) (uid idx : Nat)
    (hr : st.room = some r) :
    (moveAccepted r (Event.move uid idx) = false ∧
      (handleMove st uid idx).1 = st) ∨
    (moveAccepted r (Event.move uid idx) = true ∧
      ∃ r2, (handleMove st uid idx).1.room = some r2 ∧
        r2.board = jsSet r.board idx
          (if r.isXNext then Cell.px else Cell.po) ∧
        r2.isXNext = (!r.isXNext) ∧
        (r2.status = r.status ∨ r2.status = Status.finished)) := by
  obtain ⟨ro, cs⟩ := st
  simp only at hr
  subst hr
  by_cases hs : r.status = Status.playing
  · by_cases ht : (r.isXNext ∧ r.player1 ≠ uid) ∨
        (¬r.isXNext ∧ r.player2 ≠ some uid)
    · refine Or.inl ⟨?_, ?_⟩
      · rw [Bool.eq_false_iff]
        rw [Ne, moveAccepted_move_iff]
        rintro ⟨-, h2, -⟩
        exact h2 ht
      · dsimp only [handleMove]
        rw [if_neg (by simp [hs]), if_pos ht]
    · by_cases hc : cellTruthy (jsGet r.board idx) = true
      · refine Or.inl ⟨?_, ?_⟩
        · rw [Bool.eq_false_iff]
          rw [Ne, moveAccepted_move_iff]
          rintro ⟨-, -, h3⟩
          rw [hc] at h3
          cases h3
        · dsimp only [handleMove]
          rw [if_neg (by simp [hs]), if_neg ht, if_pos hc]
      · refine Or.inr ⟨?_, ?_⟩
        · rw [moveAccepted_move_iff]
          exact ⟨hs, ht, by simpa using hc⟩
        · dsimp only [handleMove]
          rw [if_neg (by simp [hs]), if_neg ht, if_neg hc]
          by_cases hw : (calculateWinner (jsSet r.board idx
                (if r.isXNext then Cell.px else Cell.po))).isSome = true ∨
              (jsSet r.board idx
                (if r.isXNext then Cell.px else Cell.po)).contains Cell.nullc
                = false
          · rw [if_pos hw]
            exact ⟨_, rfl, rfl, rfl, Or.inr rfl⟩
          · rw [if_neg hw]
            exact ⟨_, rfl, rfl, rfl, Or.inl rfl⟩
  · refine Or.inl ⟨?_, ?_⟩
    · rw [Bool.eq_false_iff]
      rw [Ne, moveAccepted_move_iff]
      rintro ⟨h1, -, -⟩
      exact hs h1
    · dsimp only [handleMove]
      rw [if_pos hs]

theorem handleLeave_room (st : GSt) (r : Room) (uid : Nat)
    (hr : st.room = some r) :
    ((handleLeave st uid).1.room = none ∧ r.status = Status.waiting) ∨
    ∃ r2, (handleLeave st uid).1.room = some r2 ∧
      r2.board = r.board ∧ r2.isXNext = r.isXNext ∧
      (r2.status = r.status ∨ r2.status = Status.finished) := by
  obtain ⟨ro, cs⟩ := st
  simp only at hr
  subst hr
  dsimp only [handleLeave]
  by_cases hp1 : r.player1 = uid
  · simp only [if_pos hp1]
    rcases hws : r.player2Ws with _ | c <;> dsimp only <;>
      split_ifs <;>
      first
        | exact Or.inr ⟨_, rfl, rfl, rfl, Or.inr rfl⟩
        | exact Or.inr ⟨_, rfl, rfl, rfl, Or.inl rfl⟩
        | simp_all
  · simp only [if_neg hp1]
    by_cases hp2 : r.player2 = some uid
    · simp only [if_pos hp2]
      rcases hws : r.player1Ws with _ | c <;> dsimp only <;>
        split_ifs <;>
        first
          | exact Or.inr ⟨_, rfl, rfl, rfl, Or.inr rfl⟩
          | exact Or.inr ⟨_, rfl, rfl, rfl, Or.inl rfl⟩
          | simp_all
    · simp only [if_neg hp2]
      rcases hws : r.player1Ws with _ | c <;> dsimp only <;>
        split_ifs <;>
        first
          | exact Or.inr ⟨_, rfl, rfl, rfl, Or.inr rfl⟩
          | exact Or.inr ⟨_, rfl, rfl, rfl, Or.inl rfl⟩
          | simp_all

theorem handleClose_room (st : GSt) (r : Room) (conn : Nat)
    (hr : st.room = some r) :
    ((handleClose st conn).1.room = none ∧ r.status = Status.waiting) ∨
    ∃ r2, (handleClose st conn).1.room = some r2 ∧
      r2.board = r.board ∧ r2.isXNext = r.isXNext ∧
      r2.status = r.status := by
  obtain ⟨ro, cs⟩ := st
  simp only at hr
  subst hr
  dsimp only [handleClose]
  by_cases hb : r.player1Ws = some conn ∨ r.player2Ws = some conn
  · rw [if_pos hb]
    by_cases hc1 : r.player1Ws = some conn
    · simp only [if_pos hc1]
      split_ifs with hplay hdel
      · exact Or.inr ⟨_, rfl, rfl, rfl, rfl⟩
      · exact Or.inl ⟨rfl, by simpa using hdel.1⟩
      · exact Or.inr ⟨_, rfl, rfl, rfl, rfl⟩
    · simp only [if_neg hc1]
      split_ifs with hplay hdel
      · exact Or.inr ⟨_, rfl, rfl, rfl, rfl⟩
      · exact Or.inl ⟨rfl, by simpa using hdel.1⟩
      · exact Or.inr ⟨_, rfl, rfl, rfl, rfl⟩
  · rw [if_neg hb]
    exact Or.inr ⟨_, rfl, rfl, rfl, rfl⟩

theorem handleTimerFire_room (st : GSt) (r : Room) (key : Option Nat)
    (hr : st.room = some r) :
    ∃ r2, (handleTimerFire st key).1.room = some r2 ∧
      r2.board = r.board ∧ r2.isXNext = r.isXNext ∧
      (r2.status = r.status ∨ r2.status = Status.finished) := by
  obtain ⟨ro, cs⟩ := st
  simp only at hr
  subst hr
  dsimp only [handleTimerFire]
  rcases hlk : mapLookup r.disconnectTimeouts key with _ | t <;> dsimp only
  · exact ⟨_, rfl, rfl, rfl, Or.inl rfl⟩
  · rcases hws : t.remainingWs with _ | c <;> dsimp only
    · exact ⟨_, rfl, rfl, rfl, Or.inl rfl⟩
    · split_ifs <;>
        first
          | exact ⟨_, rfl, rfl, rfl, Or.inr rfl⟩
          | exact ⟨_, rfl, rfl, rfl, Or.inl rfl⟩

theorem applyEvent_turn (st : GSt) (db : Option Partida) (e : Event)
    (r r2 : Room) (hr : st.room = some r)
    (h2 : (applyEvent st db e).1.room = some r2) :
    r2.isXNext = if moveAccepted r e then !r.isXNext else r.isXNext := by
  cases e with
  | join uid conn =>
    dsimp only [applyEvent] at h2
    obtain ⟨r3, h3, hb, hx, hs⟩ := handleJoin_room_some st r db uid conn hr
    rw [h3] at h2
    have he : r3 = r2 := Option.some.inj h2
    subst he
    simp [moveAccepted, hx]
  | move uid idx =>
    dsimp only [applyEvent] at h2
    rcases handleMove_room st r uid idx hr with ⟨hacc, hst⟩ |
      ⟨hacc, r3, h3, hb, hx, hs⟩
    · rw [hst, hr] at h2
      have he : r = r2 := Option.some.inj h2
      subst he
      rw [hacc]
      simp
    · rw [h3] at h2
      have he : r3 = r2 := Option.some.inj h2
      subst he
      rw [hacc]
      simpa using hx
  | chat u t =>
    dsimp only [applyEvent] at h2
    rw [handleChat_state, hr] at h2
    have he : r = r2 := Option.some.inj h2
    subst he
    simp [moveAccepted]
  | leave uid =>
    dsimp only [applyEvent] at h2
    rcases handleLeave_room st r uid hr with ⟨hnone, -⟩ |
      ⟨r3, h3, hb, hx, hs⟩
    · rw [hnone] at h2
      cases h2
    · rw [h3] at h2
      have he : r3 = r2 := Option.some.inj h2
      subst he
      simp [moveAccepted, hx]
  | heartbeat conn =>
    dsimp only [applyEvent] at h2
    rw [hr] at h2
    have he : r = r2 := Option.some.inj h2
    subst he
    simp [moveAccepted]
  | close conn =>
    dsimp only [applyEvent] at h2
    rcases handleClose_room st r conn hr with ⟨hnone, -⟩ |
      ⟨r3, h3, hb, hx, hs⟩
    · rw [hnone] at h2
      cases h2
    · rw [h3] at h2
      have he : r3 = r2 := Option.some.inj h2
      subst he
      simp [moveAccepted, hx]
  | timerFire key =>
    dsimp only [applyEvent] at h2
    obtain ⟨r3, h3, hb, hx, hs⟩ := handleTimerFire_room st r key hr
    rw [h3] at h2
    have he : r3 = r2 := Option.some.inj h2
    subst he
    simp [moveAccepted, hx]

theorem applyEvent_cells (st : GSt) (db : Option Partida) (e : Event)
    (r r2 : Room) (hr : st.room = some r)
    (h2 : (applyEvent st db e).1.room = some r2) (i : Nat)
    (hi : cellTruthy (jsGet r.board i) = true) :
    jsGet r2.board i = jsGet r.board i := by
  cases e with
  | join uid conn =>
    dsimp only [applyEvent] at h2
    obtain ⟨r3, h3, hb, hx, hs⟩ := handleJoin_room_some st r db uid conn hr
    rw [h3] at h2
    have he : r3 = r2 := Option.some.inj h2
    subst he
    rw [hb]
  | move uid idx =>
    dsimp only [applyEvent] at h2
    rcases handleMove_room st r uid idx hr with ⟨hacc, hst⟩ |
      ⟨hacc, r3, h3, hb, hx, hs⟩
    · rw [hst, hr] at h2
      have he : r = r2 := Option.some.inj h2
      subst he
      rfl
    · rw [h3] at h2
      have he : r3 = r2 := Option.some.inj h2
      subst he
      rw [hb]
      exact jsGet_jsSet_of_falsy
        ((moveAccepted_move_iff r uid idx).1 hacc).2.2 i hi
  | chat u t =>
    dsimp only [applyEvent] at h2
    rw [handleChat_state, hr] at h2
    have he : r = r2 := Option.some.inj h2
    subst he
    rfl
  | leave uid =>
    dsimp only [applyEvent] at h2
    rcases handleLeave_room st r uid hr with ⟨hnone, -⟩ |
      ⟨r3, h3, hb, hx, hs⟩
    · rw [hnone] at h2
      cases h2
    · rw [h3] at h2
      have he : r3 = r2 := Option.some.inj h2
      subst he
      rw [hb]
  | heartbeat conn =>
    dsimp only [applyEvent] at h2
    rw [hr] at h2
    have he : r = r2 := Option.some.inj h2
    subst he
    rfl
  | close conn =>
    dsimp only [applyEvent] at h2
    rcases handleClose_room st r conn hr with ⟨hnone, -⟩ |
      ⟨r3, h3, hb, hx, hs⟩
    · rw [hnone] at h2
      cases h2
    · rw [h3] at h2
      have he : r3 = r2 := Option.some.inj h2
      subst he
      rw [hb]
  | timerFire key =>
    dsimp only [applyEvent] at h2
    obtain ⟨r3, h3, hb, hx, hs⟩ := handleTimerFire_room st r key hr
    rw [h3] at h2
    have he : r3 = r2 := Option.some.inj h2
    subst he
    rw [hb]

theorem applyEvent_step (st : GSt) (db : Option Partida) (e : Event)
    (r : Room) (hr : st.room = some r) (hnw : r.status ≠ Status.waiting) :
    ∃ r2, (applyEvent st db e).1.room = some r2 ∧
      r2.status ≠ Status.waiting ∧
      ∀ i, cellTruthy (jsGet r.board i) = true →
        jsGet r2.board i = jsGet r.board i := by
  have hsurv : ∃ r2, (applyEvent st db e).1.room = some r2 ∧
      r2.status ≠ Status.waiting := by
    cases e with
    | join uid conn =>
      obtain ⟨r3, h3, -, -, hs⟩ := handleJoin_room_some st r db uid conn hr
      refine ⟨r3, h3, ?_⟩
      rcases hs with hs | hs <;> rw [hs] <;> simp_all
    | move uid idx =>
      rcases handleMove_room st r uid idx hr with ⟨-, hst⟩ |
        ⟨-, r3, h3, -, -, hs⟩
      · exact ⟨r, by dsimp only [applyEvent]; rw [hst]; exact hr, hnw⟩
      · refine ⟨r3, h3, ?_⟩
        rcases hs with hs | hs <;> rw [hs] <;> simp_all
    | chat u t =>
      exact ⟨r, by dsimp only [applyEvent]; rw [handleChat_state]; exact hr,
        hnw⟩
    | leave uid =>
      rcases handleLeave_room st r uid hr with ⟨-, hw⟩ | ⟨r3, h3, -, -, hs⟩
      · exact absurd hw hnw
      · refine ⟨r3, h3, ?_⟩
        rcases hs with hs | hs <;> rw [hs] <;> simp_all
    | heartbeat conn => exact ⟨r, hr, hnw⟩
    | close conn =>
      rcases handleClose_room st r conn hr with ⟨-, hw⟩ | ⟨r3, h3, -, -, hs⟩
      · exact absurd hw hnw
      · exact ⟨r3, h3, by rw [hs]; exact hnw⟩
    | timerFire key =>
      obtain ⟨r3, h3, -, -, hs⟩ := handleTimerFire_room st r key hr
      refine ⟨r3, h3, ?_⟩
      rcases hs with hs | hs <;> rw [hs] <;> simp_all
  obtain ⟨r2, h2, hnw2⟩ := hsurv
  exact ⟨r2, h2, hnw2, fun i hi => applyEvent_cells st db e r r2 hr h2 i hi⟩

/-- C4: over the room-level event step `applyEvent` (join, move, chat,
leave, heartbeat, transport close, disconnect-timer expiry), `isXNext`
flips exactly when a move is accepted (`moveAccepted`) and is changed by
no other event; a non-empty board cell is never changed by any event; and
along any event sequence applied to a room that is past `waiting`, a
non-empty cell keeps its value in the room that results. -/
theorem turnSymbol_flip_and_cell_immutable :
    (∀ (st : GSt) (db : Option Partida) (e : Event) (r r2 : Room),
      st.room = some r → (applyEvent st db e).1.room = some r2 →
      r2.isXNext = if moveAccepted r e then !r.isXNext else r.isXNext)
    ∧ (∀ (st : GSt) (db : Option Partida) (e : Event) (r r2 : Room) (i : Nat),
      st.room = some r → (applyEvent st db e).1.room = some r2 →
      cellTruthy (jsGet r.board i) = true →
      jsGet r2.board i = jsGet r.board i)
    ∧ (∀ (st : GSt) (l : List (Option Partida × Event)) (r : Room) (i : Nat),
      st.room = some r → r.status ≠ Status.waiting →
      cellTruthy (jsGet r.board i) = true →
      ∃ r2, (runEvents st l).room = some r2 ∧
        jsGet r2.board i = jsGet r.board i) := by
  refine ⟨?_, ?_, ?_⟩
  · intro st db e r r2 hr h2
    exact applyEvent_turn st db e r r2 hr h2
  · intro st db e r r2 i hr h2 hi
    exact applyEvent_cells st db e r r2 hr h2 i hi
  · intro st l
    induction l generalizing st with
    | nil =>
      intro r i hr hnw hcell
      exact ⟨r, hr, rfl⟩
    | cons p tl ih =>
      intro r i hr hnw hcell
      obtain ⟨r1, h1, hnw1, hcells⟩ := applyEvent_step st p.1 p.2 r hr hnw
      have hcell1 : cellTruthy (jsGet r1.board i) = true := by
        rw [hcells i hcell]
        exact hcell
      obtain ⟨r2, h2, hpres⟩ :=
        ih (applyEvent st p.1 p.2).1 r1 i h1 hnw1 hcell1
      exact ⟨r2, h2, by rw [hpres, hcells i hcell]⟩

/-- A playing room with an X already placed at cell 0, O to move. -/
def c4Room : Room :=
  { player1 := 1
    player1Ws := some 11
    player2 := some 2
    player2Ws := some 12
    board := [Cell.px, Cell.nullc, Cell.nullc, Cell.nullc, Cell.nullc,
              Cell.nullc, Cell.nullc, Cell.nullc, Cell.nullc]
    isXNext := false
    status := Status.playing
    disconnectTimeouts := [] }

/-- State holding `c4Room` with connections 11 and 12 open. -/
def c4St : GSt := { room := some c4Room, conns := [11, 12] }

theorem turnSymbol_flip_and_cell_immutable_witness :
    ∃ r2, (runEvents c4St
        [(none, Event.move 2 1), (none, Event.leave 1)]).room = some r2 ∧
      jsGet r2.board 0 = jsGet c4Room.board 0 :=
  turnSymbol_flip_and_cell_immutable.2.2 c4St
    [(none, Event.move 2 1), (none, Event.leave 1)] c4Room 0 rfl (by decide)
    (by decide)

/-- C8 (modelled from the spec — no source file under src/ implements
rematch): a rematch vote is rejected without effect on a non-finished
room; a single voter on a finished room yields only a vote-count progress
broadcast and never a new room; when the second distinct slot identity
votes, a new room is allocated in which the first voter is slot 1 / X and
the second voter is slot 2 / O with the board reset and
`status = playing`, a new persisted match record linking both identities
is created, the old room is discarded, and the new room identifier with
the initial state is broadcast to both bound connections. -/
theorem rematch_two_votes_allocates_new_room :
    (∀ (r : RmRoom) (uid newId : Nat), r.status ≠ Status.finished →
      applyRematch r uid newId = ⟨some r, none, []⟩)
    ∧ (∀ (r : RmRoom) (uid newId : Nat), r.status = Status.finished →
      r.rematchVotes = [] → r.slot1 ≠ r.slot2 →
      (applyRematch r uid newId).newRoom = none ∧
      (applyRematch r uid newId).oldRoom =
        some { r with rematchVotes := [uid] } ∧
      (applyRematch r uid newId).effs = [RmEff.progressUpdate 1])
    ∧ (∀ (r : RmRoom) (u1 u2 newId : Nat), r.status = Status.finished →
      r.rematchVotes = [u1] → u2 ≠ u1 →
      ((r.slot1 = u1 ∧ r.slot2 = u2) ∨ (r.slot1 = u2 ∧ r.slot2 = u1)) →
      (applyRematch r u2 newId).oldRoom = none ∧
      (applyRematch r u2 newId).newRoom = some (newId,
        { slot1 := u1
          slot2 := u2
          conn1 := if u1 = r.slot1 then r.conn1 else r.conn2
          conn2 := if u2 = r.slot1 then r.conn1 else r.conn2
          board := List.replicate 9 Cell.nullc
          isXNext := true
          status := Status.playing
          rematchVotes := [] }) ∧
      RmEff.dbCreateMatch u1 u2 ∈ (applyRematch r u2 newId).effs ∧
      (∀ c, (r.conn1 = some c ∨ r.conn2 = some c) →
        RmEff.announceNewRoom c newId (List.replicate 9 Cell.nullc) true ∈
          (applyRematch r u2 newId).effs)) := by
  refine ⟨?_, ?_, ?_⟩
  · intro r uid newId hns
    dsimp only [applyRematch]
    rw [if_pos hns]
  · intro r uid newId hs hv hss
    dsimp only [applyRematch]
    rw [if_neg (by simp [hs]), hv]
    rw [if_neg (show ¬(uid ∈ ([] : List Nat)) by simp)]
    rw [if_neg (show ¬(r.slot1 ∈ ([] : List Nat) ++ [uid] ∧
        r.slot2 ∈ ([] : List Nat) ++ [uid]) by
      rintro ⟨h1, h2⟩
      simp at h1 h2
      exact hss (h1.trans h2.symm))]
    exact ⟨rfl, rfl, rfl⟩
  · intro r u1 u2 newId hs hv hne hslots
    dsimp only [applyRematch]
    rw [if_neg (by simp [hs]), hv]
    rw [if_neg (show ¬(u2 ∈ [u1]) by simp [hne])]
    rw [if_pos (show r.slot1 ∈ [u1] ++ [u2] ∧ r.slot2 ∈ [u1] ++ [u2] by
      rcases hslots with ⟨h1, h2⟩ | ⟨h1, h2⟩ <;> simp [h1, h2])]
    refine ⟨rfl, rfl, List.mem_append.2 (Or.inl (List.mem_append.2
      (Or.inl (List.mem_singleton.2 rfl)))), ?_⟩
    intro c hc
    rcases hc with hc | hc
    · refine List.mem_append.2 (Or.inl (List.mem_append.2 (Or.inr ?_)))
      rw [hc]
      exact List.mem_singleton.2 rfl
    · refine List.mem_append.2 (Or.inr ?_)
      rw [hc]
      exact List.mem_singleton.2 rfl

/-- A finished rematch-model room: slots 1 and 2, both bound, where the
slot-2 player (identity 2) has already cast the first rematch vote. -/
def c8Room : RmRoom :=
  { slot1 := 1
    slot2 := 2
    conn1 := some 11
    conn2 := some 12
    board := [Cell.px, Cell.px, Cell.px, Cell.po, Cell.po, Cell.nullc,
              Cell.nullc, Cell.nullc, Cell.nullc]
    isXNext := false
    status := Status.finished
    rematchVotes := [2] }

theorem rematch_two_votes_allocates_new_room_witness :
    (applyRematch c8Room 1 77).oldRoom = none ∧
    (applyRematch c8Room 1 77).newRoom = some (77,
      { slot1 := 2
        slot2 := 1
        conn1 := if 2 = c8Room.slot1 then c8Room.conn1 else c8Room.conn2
        conn2 := if 1 = c8Room.slot1 then c8Room.conn1 else c8Room.conn2
        board := List.replicate 9 Cell.nullc
        isXNext := true
        status := Status.playing
        rematchVotes := [] }) ∧
    RmEff.dbCreateMatch 2 1 ∈ (applyRematch c8Room 1 77).effs ∧
    (∀ c, (c8Room.conn1 = some c ∨ c8Room.conn2 = some c) →
      RmEff.announceNewRoom c 77 (List.replicate 9 Cell.nullc) true ∈
        (applyRematch c8Room 1 77).effs) :=
  rematch_two_votes_allocates_new_room.2.2 c8Room 2 1 77 rfl rfl (by decide)
    (Or.inr ⟨rfl, rfl⟩)

theorem p0_mem_sendIfOpen {conns : List Nat} {ws : Option Nat} {m : P0Msg}
    {e : P0Eff} (h : e ∈ p0SendIfOpen conns ws m) :
    ∃ c, e = P0Eff.send c m := by
  unfold p0SendIfOpen at h
  rcases ws with _ | c
  · simp at h
  · simp at h
    exact ⟨c, h.2⟩

theorem p0_mem_broadcast {conns : List Nat} {room : P0Room} {m : P0Msg}
    {e : P0Eff} (h : e ∈ p0Broadcast conns room m) :
    ∃ c, e = P0Eff.send c m := by
  unfold p0Broadcast at h
  rcases List.mem_append.1 h with h1 | h1 <;> exact p0_mem_sendIfOpen h1

/-- C9 (against the `src/unnamed/part_000` variant, the one storing the
chat log): a chat event on an existing room appends the entry to
`room.messages` and broadcasts it to both bound open sockets independent
of status; and a reconnect join into a playing room replays the stored
chat log and the current board to the rejoining socket only — every chat
replay and every game-state message in the join's output targets the
rejoining connection. -/
theorem chat_appends_and_reconnect_replays :
    (∀ (room : P0Room) (conns : List Nat) (m : P0Chat),
      ∃ room2, (p0HandleChat (some room) conns m).1 = some room2 ∧
        room2.messages = room.messages ++ [m] ∧
        room2.status = room.status ∧
        (p0HandleChat (some room) conns m).2 =
          p0SendIfOpen conns room.player1Ws (P0Msg.chatRelay m) ++
            p0SendIfOpen conns room.player2Ws (P0Msg.chatRelay m))
    ∧ (∀ (room : P0Room) (conns : List Nat) (uid conn : Nat),
      room.status = Status.playing →
      (room.player1 = uid ∨ (room.player2 = some uid ∧ uid ≠ 0)) →
      conn ∈ conns →
      ∃ room2, (p0HandleJoin (some room) conns uid conn).1 = some room2 ∧
        room2.board = room.board ∧ room2.messages = room.messages ∧
        (∀ mc ∈ room.messages,
          P0Eff.send conn (P0Msg.chatRelay mc) ∈
            (p0HandleJoin (some room) conns uid conn).2) ∧
        P0Eff.send conn (P0Msg.start room.board room.isXNext) ∈
          (p0HandleJoin (some room) conns uid conn).2 ∧
        (∀ c mc, P0Eff.send c (P0Msg.chatRelay mc) ∈
            (p0HandleJoin (some room) conns uid conn).2 → c = conn) ∧
        (∀ c b x, P0Eff.send c (P0Msg.start b x) ∈
            (p0HandleJoin (some room) conns uid conn).2 → c = conn)) := by
  constructor
  · intro room conns m
    exact ⟨_, rfl, rfl, rfl, rfl⟩
  · intro room conns uid conn hs hid hconn
    have hct : conns.contains conn = true := by simpa using hconn
    dsimp only [p0HandleJoin]
    rw [if_neg (show ¬(room.player1 ≠ uid ∧ ¬ optTruthy room.player2 = true)
        by
      rcases hid with h | ⟨h, h0⟩
      · rintro ⟨ha, -⟩
        exact ha h
      · rintro ⟨-, hb⟩
        exact hb (by simp [h, optTruthy, h0]))]
    rw [if_pos (show room.player1 = uid ∨ room.player2 = some uid by
      rcases hid with h | ⟨h, -⟩
      · exact Or.inl h
      · exact Or.inr h)]
    have key : ∀ room2 : P0Room, room2.board = room.board →
        room2.isXNext = room.isXNext → room2.status = room.status →
        room2.messages = room.messages →
        ∃ room3,
          (some room2,
            p0Broadcast conns room2 P0Msg.playerData ++
              (room2.messages.map (fun mm =>
                if conns.contains conn = true then
                  [P0Eff.send conn (P0Msg.chatRelay mm)]
                else [])).flatten ++
              [P0Eff.send conn
                (if room2.status = Status.playing then
                  P0Msg.start room2.board room2.isXNext
                else P0Msg.waitingState room2.board room2.isXNext)]).1 =
            some room3 ∧
          room3.board = room.board ∧ room3.messages = room.messages ∧
          (∀ mc ∈ room.messages,
            P0Eff.send conn (P0Msg.chatRelay mc) ∈
              (some room2,
                p0Broadcast conns room2 P0Msg.playerData ++
                  (room2.messages.map (fun mm =>
                    if conns.contains conn = true then
                      [P0Eff.send conn (P0Msg.chatRelay mm)]
                    else [])).flatten ++
                  [P0Eff.send conn
                    (if room2.status = Status.playing then
                      P0Msg.start room2.board room2.isXNext
                    else P0Msg.waitingState room2.board room2.isXNext)]).2) ∧
          P0Eff.send conn (P0Msg.start room.board room.isXNext) ∈
            (some room2,
              p0Broadcast conns room2 P0Msg.playerData ++
                (room2.messages.map (fun mm =>
                  if conns.contains conn = true then
                    [P0Eff.send conn (P0Msg.chatRelay mm)]
                  else [])).flatten ++
                [P0Eff.send conn
                  (if room2.status = Status.playing then
                    P0Msg.start room2.board room2.isXNext
                  else P0Msg.waitingState room2.board room2.isXNext)]).2 ∧
          (∀ c mc, P0Eff.send c (P0Msg.chatRelay mc) ∈
              (some room2,
                p0Broadcast conns room2 P0Msg.playerData ++
                  (room2.messages.map (fun mm =>
                    if conns.contains conn = true then
                      [P0Eff.send conn (P0Msg.chatRelay mm)]
                    else [])).flatten ++
                  [P0Eff.send conn
                    (if room2.status = Status.playing then
                      P0Msg.start room2.board room2.isXNext
                    else P0Msg.waitingState room2.board room2.isXNext)]).2 →
            c = conn) ∧
          (∀ c b x, P0Eff.send c (P0Msg.start b x) ∈
              (some room2,
                p0Broadcast conns room2 P0Msg.playerData ++
                  (room2.messages.map (fun mm =>
                    if conns.contains conn = true then
                      [P0Eff.send conn (P0Msg.chatRelay mm)]
                    else [])).flatten ++
                  [P0Eff.send conn
                    (if room2.status = Status.playing then
                      P0Msg.start room2.board room2.isXNext
                    else P0Msg.waitingState room2.board room2.isXNext)]).2 →
            c = conn) := by
      intro room2 hb hx hst hm
      refine ⟨room2, rfl, hb, hm, ?_, ?_, ?_, ?_⟩
      · intro mc hmc
        refine List.mem_append.2 (Or.inl (List.mem_append.2 (Or.inr ?_)))
        rw [List.mem_flatten]
        refine ⟨[P0Eff.send conn (P0Msg.chatRelay mc)], ?_, by simp⟩
        rw [List.mem_map]
        exact ⟨mc, by rw [hm]; exact hmc, by rw [if_pos hct]⟩
      · refine List.mem_append.2 (Or.inr ?_)
        rw [if_pos (by rw [hst]; exact hs), hb, hx]
        exact List.mem_singleton.2 rfl
      · intro c mc hmem
        rcases List.mem_append.1 hmem with h1 | h1
        · rcases List.mem_append.1 h1 with h2 | h2
          · rcases p0_mem_broadcast h2 with ⟨c2, hc2⟩
            cases hc2
          · rw [List.mem_flatten] at h2
            obtain ⟨l, hl, hel⟩ := h2
            rw [List.mem_map] at hl
            obtain ⟨mm, -, hml⟩ := hl
            rw [if_pos hct] at hml
            rw [← hml] at hel
            rw [List.mem_singleton] at hel
            injection hel with hc hm2
        · rw [List.mem_singleton] at h1
          injection h1 with hc hm2
      · intro c b x hmem
        rcases List.mem_append.1 hmem with h1 | h1
        · rcases List.mem_append.1 h1 with h2 | h2
          · rcases p0_mem_broadcast h2 with ⟨c2, hc2⟩
            cases hc2
          · rw [List.mem_flatten] at h2
            obtain ⟨l, hl, hel⟩ := h2
            rw [List.mem_map] at hl
            obtain ⟨mm, -, hml⟩ := hl
            rw [if_pos hct] at hml
            rw [← hml] at hel
            rw [List.mem_singleton] at hel
            cases hel
        · rw [List.mem_singleton] at h1
          injection h1 with hc hm2
    by_cases hp1 : room.player1 = uid
    · rw [if_pos hp1]
      exact key _ rfl rfl rfl rfl
    · rw [if_neg hp1]
      exact key _ rfl rfl rfl rfl

/-- A playing `part_000` room with a stored chat message, whose creator
(identity 1) is momentarily unbound and about to reconnect. -/
def c9Room : P0Room :=
  { player1 := 1
    player1Ws := none
    player2 := some 2
    player2Ws := some 12
    board := [Cell.px, Cell.nullc, Cell.nullc, Cell.nullc, Cell.nullc,
              Cell.nullc, Cell.nullc, Cell.nullc, Cell.nullc]
    isXNext := false
    status := Status.playing
    messages := [{ user := "ann", text := "hi" }] }

theorem chat_appends_and_reconnect_replays_witness :
    ∃ room2, (p0HandleJoin (some c9Room) [11, 12] 1 11).1 = some room2 ∧
      room2.board = c9Room.board ∧ room2.messages = c9Room.messages ∧
      (∀ mc ∈ c9Room.messages,
        P0Eff.send 11 (P0Msg.chatRelay mc) ∈
          (p0HandleJoin (some c9Room) [11, 12] 1 11).2) ∧
      P0Eff.send 11 (P0Msg.start c9Room.board c9Room.isXNext) ∈
        (p0HandleJoin (some c9Room) [11, 12] 1 11).2 ∧
      (∀ c mc, P0Eff.send c (P0Msg.chatRelay mc) ∈
          (p0HandleJoin (some c9Room) [11, 12] 1 11).2 → c = 11) ∧
      (∀ c b x, P0Eff.send c (P0Msg.start b x) ∈
          (p0HandleJoin (some c9Room) [11, 12] 1 11).2 → c = 11) :=
  chat_appends_and_reconnect_replays.2 c9Room [11, 12] 1 11 rfl (Or.inl rfl)
    (by decide)
